import Mathlib

/-!
Verification of the numeric, string-formatting and control-flow behaviour of
`rerf-cubes.py` / `context.py` (rerf-bd-bobbins-cq).

The Python code works on IEEE floats; this development embeds the arithmetic
exactly over `ℚ`, with Python's `round` (banker's rounding, round half to
even) modelled by `pyRound`.  Geometry construction is delegated by the
program to the CadQuery kernel and is not modelled; what is modelled is every
piece of arithmetic, file naming, argument checking and export dispatch that
the program itself performs.
-/

/-- Python's built-in `round` restricted to one argument: round to the nearest
integer, ties going to the even integer (banker's rounding). -/
def pyRound (q : ℚ) : ℤ :=
  if q - ⌊q⌋ < 1/2 then ⌊q⌋
  else if 1/2 < q - ⌊q⌋ then ⌊q⌋ + 1
  else if ⌊q⌋ % 2 = 0 then ⌊q⌋ else ⌊q⌋ + 1

/-- `round_to_resolution` from `rerf-cubes.py` (lines 20-31):
`return round(value / resolution) * resolution`. -/
def round_to_resolution (value resolution : ℚ) : ℚ :=
  pyRound (value / resolution) * resolution

theorem pyRound_intCast (k : ℤ) : pyRound (k : ℚ) = k := by
  unfold pyRound
  rw [Int.floor_intCast]
  norm_num

theorem abs_pyRound_sub (q : ℚ) : |(pyRound q : ℚ) - q| ≤ 1/2 := by
  have h0 : (⌊q⌋ : ℚ) ≤ q := Int.floor_le q
  have h1 : q < ⌊q⌋ + 1 := Int.lt_floor_add_one q
  unfold pyRound
  split
  · rename_i h
    rw [abs_le]
    constructor <;> linarith
  · rename_i h
    push_neg at h
    split
    · rename_i h2
      rw [abs_le]
      push_cast
      constructor <;> linarith
    · rename_i h2
      push_neg at h2
      have heq : q - ⌊q⌋ = 1/2 := le_antisymm h2 h
      split
      · rw [abs_le]
        constructor <;> linarith
      · rw [abs_le]
        push_cast
        constructor <;> linarith

/-- `round_to_resolution` is the identity on exact integer multiples of the
resolution. -/
theorem round_to_resolution_int_mul (k : ℤ) (r : ℚ) (hr : r ≠ 0) :
    round_to_resolution (k * r) r = k * r := by
  unfold round_to_resolution
  rw [mul_div_assoc, div_self hr, mul_one, pyRound_intCast]

/-- C2: for every value `v` and every resolution `r > 0`,
`round_to_resolution v r` is an integer multiple of `r` that is nearest to
`v`: it equals `k * r` for some integer `k`, and its distance to `v` is at
most `r / 2`. -/
theorem round_to_resolution_nearest_multiple (v r : ℚ) (hr : 0 < r) :
    (∃ k : ℤ, round_to_resolution v r = k * r) ∧
    |round_to_resolution v r - v| ≤ r / 2 := by
  refine ⟨⟨pyRound (v / r), rfl⟩, ?_⟩
  have hr' : r ≠ 0 := ne_of_gt hr
  have hrw : round_to_resolution v r - v = ((pyRound (v / r) : ℚ) - v / r) * r := by
    unfold round_to_resolution
    field_simp
  rw [hrw, abs_mul, abs_of_pos hr]
  have h := abs_pyRound_sub (v / r)
  calc |(pyRound (v / r) : ℚ) - v / r| * r ≤ (1/2) * r :=
        mul_le_mul_of_nonneg_right h (le_of_lt hr)
    _ = r / 2 := by ring

theorem round_to_resolution_nearest_multiple_witness :
    (0 : ℚ) < 1 ∧
    ((∃ k : ℤ, round_to_resolution (3/4) 1 = k * 1) ∧
      |round_to_resolution (3/4) 1 - 3/4| ≤ 1 / 2) :=
  ⟨by norm_num, round_to_resolution_nearest_multiple (3/4) 1 (by norm_num)⟩

/-- C3: for every value `v` and every resolution `r > 0`,
`round_to_resolution` is idempotent. -/
theorem round_to_resolution_idempotent (v r : ℚ) (hr : 0 < r) :
    round_to_resolution (round_to_resolution v r) r = round_to_resolution v r := by
  have h := round_to_resolution_int_mul (pyRound (v / r)) r (ne_of_gt hr)
  calc round_to_resolution (round_to_resolution v r) r
      = round_to_resolution ((pyRound (v / r) : ℚ) * r) r := rfl
    _ = (pyRound (v / r) : ℚ) * r := h
    _ = round_to_resolution v r := rfl

theorem round_to_resolution_idempotent_witness :
    (0 : ℚ) < 1 ∧
    round_to_resolution (round_to_resolution (3/4) 1) 1 = round_to_resolution (3/4) 1 :=
  ⟨by norm_num, round_to_resolution_idempotent (3/4) 1 (by norm_num)⟩

/-- The flat parameter record of `context.py` (`Context` dataclass).  The
Python field `show` is called `show_flag` here because `show` is a Lean
keyword; all other field names follow the source.  Floats are embedded as
`ℚ`, Python ints as `ℤ`. -/
structure Context where
  version : String
  file_name : String
  file_format : String
  rerf : Bool
  row_count : ℤ
  col_count : ℤ
  position_box_location : ℚ × ℚ
  position_box_size : ℚ × ℚ
  cube_size : ℚ
  tube_length : ℚ
  tube_hole_diameter : ℚ
  tube_wall_thickness : ℚ
  bed_resolution : ℚ
  bed_size : ℚ × ℚ
  zlift_height : ℚ
  layer_height : ℚ
  base_layers : ℤ
  overlap : ℚ
  show_flag : Bool
deriving DecidableEq

/-- `generate_shape_with_support` line 294:
`position_box_width = round_to_resolution(ctx.position_box_size[0], ctx.bed_resolution)`. -/
def position_box_width (ctx : Context) : ℚ :=
  round_to_resolution ctx.position_box_size.1 ctx.bed_resolution

/-- `generate_shape_with_support` line 295. -/
def position_box_height (ctx : Context) : ℚ :=
  round_to_resolution ctx.position_box_size.2 ctx.bed_resolution

/-- `generate_shape_with_support` line 300:
`cube_size_half = round_to_resolution(ctx.cube_size / 2, ctx.bed_resolution)`;
also `x_initial` / `y_initial` (lines 303-304). -/
def cube_size_half (ctx : Context) : ℚ :=
  round_to_resolution (ctx.cube_size / 2) ctx.bed_resolution

/-- `generate_shape_with_support` line 305:
`x_step = round_to_resolution((position_box_width - ctx.cube_size) / col_count, ctx.bed_resolution)`. -/
def x_step (ctx : Context) (col_count : ℕ) : ℚ :=
  round_to_resolution ((position_box_width ctx - ctx.cube_size) / col_count) ctx.bed_resolution

/-- `generate_shape_with_support` line 306. -/
def y_step (ctx : Context) (row_count : ℕ) : ℚ :=
  round_to_resolution ((position_box_height ctx - ctx.cube_size) / row_count) ctx.bed_resolution

/-- `generate_shape_with_support` line 309:
`x = round_to_resolution(x_initial + (x_step * col), ctx.bed_resolution)`. -/
def x_offset (ctx : Context) (col_count col : ℕ) : ℚ :=
  round_to_resolution (cube_size_half ctx + x_step ctx col_count * col) ctx.bed_resolution

/-- `generate_shape_with_support` line 311. -/
def y_offset (ctx : Context) (row_count row : ℕ) : ℚ :=
  round_to_resolution (cube_size_half ctx + y_step ctx row_count * row) ctx.bed_resolution

/-- A context whose cube size (3) is an odd multiple of the bed resolution
(1): the half-cube offset rounds up to 2 and the single placed cube pokes out
of the 3-wide position box. -/
def gridCexOddCube : Context :=
  { version := "1.0.0", file_name := "f", file_format := "stl", rerf := false,
    row_count := 1, col_count := 1,
    position_box_location := (0, 0), position_box_size := (3, 3),
    cube_size := 3, tube_length := 1, tube_hole_diameter := 1,
    tube_wall_thickness := 1, bed_resolution := 1, bed_size := (20, 20),
    zlift_height := 1, layer_height := 1, base_layers := 1, overlap := 0,
    show_flag := false }

/-- A context with an even cube size (2) but where
`(position_box_width - cube_size) / col_count = 9/6` rounds the step up to 2,
so the last of 6 columns pokes out of the 11-wide position box. -/
def gridCexStepUp : Context :=
  { gridCexOddCube with cube_size := 2, position_box_size := (11, 11) }

/-- C4 fails as stated: the placed cubes do not always stay inside
`[0, position_box_width]`.  With cube size 3 on a resolution-1 bed and a
3-wide box (one column), the cube occupies `[0.5, 3.5]`; with cube size 2,
an 11-wide box and six columns, the step rounds up to 2 and column 5 occupies
`[10, 12]`. -/
theorem grid_offsets_cex :
    (position_box_width gridCexOddCube = 3 ∧
      x_offset gridCexOddCube 1 0 = 2 ∧
      ¬ (x_offset gridCexOddCube 1 0 + gridCexOddCube.cube_size / 2 ≤
          position_box_width gridCexOddCube)) ∧
    (position_box_width gridCexStepUp = 11 ∧
      x_offset gridCexStepUp 6 5 = 11 ∧
      ¬ (x_offset gridCexStepUp 6 5 + gridCexStepUp.cube_size / 2 ≤
          position_box_width gridCexStepUp)) := by
  norm_num [gridCexOddCube, gridCexStepUp, x_offset, x_step, cube_size_half,
    position_box_width, round_to_resolution, pyRound]

/-- One axis of the grid layout, in the exact shape the source computes it:
when the cube size is an even multiple `2m·r` of the resolution and the slack
`W - cs` is a multiple `n·k·r` of `col_count · resolution`, every rounding in
the offset chain is the identity, the offsets form the arithmetic progression
`cs/2 + i·step`, they agree with rounding `cs/2 + step·i` directly, and the
cube `[offset - cs/2, offset + cs/2]` stays inside `[0, W]`. -/
theorem grid_axis_exact (r cs W : ℚ) (m k n i : ℕ)
    (hr : 0 < r) (hcs : cs = 2 * m * r) (hn : 1 ≤ n)
    (hW : W - cs = ((n * k : ℕ) : ℚ) * r) (hi : i < n) :
    round_to_resolution ((W - cs) / n) r = (k : ℚ) * r
    ∧ round_to_resolution
        (round_to_resolution (cs / 2) r + round_to_resolution ((W - cs) / n) r * i) r
      = cs / 2 + (i : ℚ) * round_to_resolution ((W - cs) / n) r
    ∧ round_to_resolution
        (round_to_resolution (cs / 2) r + round_to_resolution ((W - cs) / n) r * i) r
      = round_to_resolution (cs / 2 + round_to_resolution ((W - cs) / n) r * i) r
    ∧ 0 ≤ (cs / 2 + (i : ℚ) * round_to_resolution ((W - cs) / n) r) - cs / 2
    ∧ (cs / 2 + (i : ℚ) * round_to_resolution ((W - cs) / n) r) + cs / 2 ≤ W := by
  have hr' : r ≠ 0 := ne_of_gt hr
  have hn0 : (0 : ℚ) < (n : ℚ) := by exact_mod_cast Nat.lt_of_lt_of_le Nat.zero_lt_one hn
  have hn' : (n : ℚ) ≠ 0 := ne_of_gt hn0
  have hdiv : (W - cs) / (n : ℚ) = (k : ℚ) * r := by
    rw [hW]
    push_cast
    field_simp
    ring
  have hstep : round_to_resolution ((W - cs) / n) r = (k : ℚ) * r := by
    rw [hdiv]
    have h := round_to_resolution_int_mul (k : ℤ) r hr'
    push_cast at h
    exact h
  have hhalf : cs / 2 = (m : ℚ) * r := by rw [hcs]; ring
  have hhalfr : round_to_resolution (cs / 2) r = cs / 2 := by
    rw [hhalf]
    have h := round_to_resolution_int_mul (m : ℤ) r hr'
    push_cast at h
    exact h
  have hsum : cs / 2 + (k : ℚ) * r * (i : ℚ) = (((m + k * i : ℕ) : ℤ) : ℚ) * r := by
    rw [hhalf]
    push_cast
    ring
  have hoff : round_to_resolution (cs / 2 + (k : ℚ) * r * (i : ℚ)) r
      = cs / 2 + (k : ℚ) * r * (i : ℚ) := by
    rw [hsum, round_to_resolution_int_mul _ r hr']
  refine ⟨hstep, ?_, ?_, ?_, ?_⟩
  · rw [hstep, hhalfr, hoff]
    ring
  · rw [hstep, hhalfr]
  · rw [hstep]
    have : (0 : ℚ) ≤ (i : ℚ) * ((k : ℚ) * r) := by positivity
    linarith
  · rw [hstep]
    have hik : (i : ℚ) * ((k : ℚ) * r) ≤ (n : ℚ) * ((k : ℚ) * r) := by
      have hin : (i : ℚ) ≤ (n : ℚ) := by exact_mod_cast le_of_lt hi
      have : (0 : ℚ) ≤ (k : ℚ) * r := by positivity
      nlinarith
    have hWeq : W = cs + ((n : ℚ) * (k : ℚ)) * r := by
      have := hW
      push_cast at this
      linarith
    rw [hWeq]
    nlinarith

/-- C4 amended: for row/column counts in `1..10`, provided the bed resolution
is positive, the cube size is an even natural multiple of the bed resolution
(the precaution stated in the source comment at lines 297-299), and the slack
between the rounded position box and the cube size is a nonnegative multiple
of `col_count` (resp. `row_count`) bed-resolution units, the offsets computed
by `generate_shape_with_support` equal
`round_to_resolution(cube_size/2 + col*x_step, bed_resolution)`, are evenly
spaced (`cube_size/2 + col*x_step` exactly), symmetrically in y, and every
placed cube (offset ± half a cube) lies within
`[0, position_box_width] × [0, position_box_height]`.  Without the
divisibility conditions the containment fails (`grid_offsets_cex`). -/
theorem grid_offsets_amended (ctx : Context) (cc rc col row : ℕ)
    (hr : 0 < ctx.bed_resolution)
    (hcs : ∃ m : ℕ, ctx.cube_size = 2 * m * ctx.bed_resolution)
    (hcc1 : 1 ≤ cc) (hcc10 : cc ≤ 10) (hrc1 : 1 ≤ rc) (hrc10 : rc ≤ 10)
    (hW : ∃ k : ℕ, position_box_width ctx - ctx.cube_size
            = ((cc * k : ℕ) : ℚ) * ctx.bed_resolution)
    (hH : ∃ k : ℕ, position_box_height ctx - ctx.cube_size
            = ((rc * k : ℕ) : ℚ) * ctx.bed_resolution)
    (hcol : col < cc) (hrow : row < rc) :
    x_offset ctx cc col
        = round_to_resolution (ctx.cube_size / 2 + x_step ctx cc * col) ctx.bed_resolution
    ∧ x_offset ctx cc col = ctx.cube_size / 2 + (col : ℚ) * x_step ctx cc
    ∧ y_offset ctx rc row
        = round_to_resolution (ctx.cube_size / 2 + y_step ctx rc * row) ctx.bed_resolution
    ∧ y_offset ctx rc row = ctx.cube_size / 2 + (row : ℚ) * y_step ctx rc
    ∧ 0 ≤ x_offset ctx cc col - ctx.cube_size / 2
    ∧ x_offset ctx cc col + ctx.cube_size / 2 ≤ position_box_width ctx
    ∧ 0 ≤ y_offset ctx rc row - ctx.cube_size / 2
    ∧ y_offset ctx rc row + ctx.cube_size / 2 ≤ position_box_height ctx := by
  obtain ⟨m, hm⟩ := hcs
  obtain ⟨kx, hkx⟩ := hW
  obtain ⟨ky, hky⟩ := hH
  have hx := grid_axis_exact ctx.bed_resolution ctx.cube_size (position_box_width ctx)
    m kx cc col hr hm hcc1 hkx hcol
  have hy := grid_axis_exact ctx.bed_resolution ctx.cube_size (position_box_height ctx)
    m ky rc row hr hm hrc1 hky hrow
  obtain ⟨hxs, hxo, hxc, hxl, hxu⟩ := hx
  obtain ⟨hys, hyo, hyc, hyl, hyu⟩ := hy
  have exo : x_offset ctx cc col
      = round_to_resolution (round_to_resolution (ctx.cube_size / 2) ctx.bed_resolution
          + round_to_resolution ((position_box_width ctx - ctx.cube_size) / cc)
              ctx.bed_resolution * col) ctx.bed_resolution := rfl
  have eyo : y_offset ctx rc row
      = round_to_resolution (round_to_resolution (ctx.cube_size / 2) ctx.bed_resolution
          + round_to_resolution ((position_box_height ctx - ctx.cube_size) / rc)
              ctx.bed_resolution * row) ctx.bed_resolution := rfl
  have exs : x_step ctx cc
      = round_to_resolution ((position_box_width ctx - ctx.cube_size) / cc)
          ctx.bed_resolution := rfl
  have eys : y_step ctx rc
      = round_to_resolution ((position_box_height ctx - ctx.cube_size) / rc)
          ctx.bed_resolution := rfl
  rw [exo, eyo, exs, eys]
  refine ⟨hxc, hxo, hyc, hyo, ?_, ?_, ?_, ?_⟩
  · rw [hxo]; exact hxl
  · rw [hxo]; exact hxu
  · rw [hyo]; exact hyl
  · rw [hyo]; exact hyu

/-- A context satisfying the divisibility hypotheses of
`grid_offsets_amended`: resolution 1, cube size 2 = 2·1·1, box 6×4, so the
slack is 4 = 2·2 for two columns and 2 = 1·2 for one row. -/
def gridWit : Context :=
  { gridCexOddCube with cube_size := 2, position_box_size := (6, 4) }

theorem grid_offsets_amended_witness :
    (0 : ℚ) < gridWit.bed_resolution ∧
    (x_offset gridWit 2 1
        = round_to_resolution (gridWit.cube_size / 2 + x_step gridWit 2 * 1) gridWit.bed_resolution
    ∧ x_offset gridWit 2 1 = gridWit.cube_size / 2 + ((1 : ℕ) : ℚ) * x_step gridWit 2
    ∧ y_offset gridWit 1 0
        = round_to_resolution (gridWit.cube_size / 2 + y_step gridWit 1 * 0) gridWit.bed_resolution
    ∧ y_offset gridWit 1 0 = gridWit.cube_size / 2 + ((0 : ℕ) : ℚ) * y_step gridWit 1
    ∧ 0 ≤ x_offset gridWit 2 1 - gridWit.cube_size / 2
    ∧ x_offset gridWit 2 1 + gridWit.cube_size / 2 ≤ position_box_width gridWit
    ∧ 0 ≤ y_offset gridWit 1 0 - gridWit.cube_size / 2
    ∧ y_offset gridWit 1 0 + gridWit.cube_size / 2 ≤ position_box_height gridWit) :=
  ⟨by norm_num [gridWit, gridCexOddCube],
    grid_offsets_amended gridWit 2 1 1 0
      (by norm_num [gridWit, gridCexOddCube])
      ⟨1, by norm_num [gridWit, gridCexOddCube]⟩
      (by norm_num) (by norm_num) (by norm_num) (by norm_num)
      ⟨2, by norm_num [gridWit, gridCexOddCube, position_box_width,
        round_to_resolution, pyRound]⟩
      ⟨2, by norm_num [gridWit, gridCexOddCube, position_box_height,
        round_to_resolution, pyRound]⟩
      (by norm_num) (by norm_num)⟩

/-- `__main__` line 496: `rerf_number_rows = 2`. -/
def rerf_number_rows : ℕ := 2

/-- `__main__` line 497: `rerf_number_cols = 4`. -/
def rerf_number_cols : ℕ := 4

/-- `__main__` line 488: `any_cubic_mono_4 = 0` (index of the only printer). -/
def any_cubic_mono_4 : ℕ := 0

/-- `__main__` lines 490-492: per-printer table mapping the sequential grid
order to the printer's exposure-range numbering; the Anycubic Mono 4 entry is
a simple reversal. -/
def sequential_to_printer_order : List (List ℕ) :=
  [[8, 7, 6, 5, 4, 3, 2, 1]]

/-- `__main__` line 531:
`sequential_order = (rerf_number_col * rerf_number_rows) + rerf_number_row`. -/
def sequential_order (rerf_number_col rerf_number_row : ℕ) : ℕ :=
  rerf_number_col * rerf_number_rows + rerf_number_row

/-- `__main__` line 532:
`rerf_number = sequential_to_printer_order[current_printer][sequential_order]`
(out-of-range indices yield 0 in this total model; the proofs below show all
indices used stay in range). -/
def rerf_number_of (rerf_number_col rerf_number_row : ℕ) : ℕ :=
  (sequential_to_printer_order.getD any_cubic_mono_4 []).getD
    (sequential_order rerf_number_col rerf_number_row) 0

/-- C5: over the 2×4 exposure grid, walked column-major exactly as the
`__main__` loops do, the sequential order takes each value `0..7` exactly
once, the Anycubic Mono 4 table sends sequential order `s` to `8 - s`, and
the resulting rerf numbers `[8,7,6,5,4,3,2,1]` are exactly the permutation
`{1,...,8}` in the documented reversed ordering. -/
theorem rerf_numbering_permutation :
    ((List.range rerf_number_cols).flatMap fun c =>
        (List.range rerf_number_rows).map fun r => sequential_order c r)
      = [0, 1, 2, 3, 4, 5, 6, 7]
    ∧ ((List.range 8).map fun s =>
        (sequential_to_printer_order.getD any_cubic_mono_4 []).getD s 0)
      = (List.range 8).map (fun s => 8 - s)
    ∧ ((List.range rerf_number_cols).flatMap fun c =>
        (List.range rerf_number_rows).map fun r => rerf_number_of c r)
      = [8, 7, 6, 5, 4, 3, 2, 1]
    ∧ ((List.range rerf_number_cols).flatMap fun c =>
        (List.range rerf_number_rows).map fun r => rerf_number_of c r).Perm
        [1, 2, 3, 4, 5, 6, 7, 8] := by
  decide

/-- ASCII lower-casing of one character, as Python's `str.lower` acts on the
ASCII format strings used by the program. -/
def charLower (c : Char) : Char :=
  if 'A' ≤ c ∧ c ≤ 'Z' then Char.ofNat (c.toNat + 32) else c

/-- Python's `str.lower` on the ASCII strings used by `export_model`. -/
def strLower (s : String) : String :=
  String.mk (s.toList.map charLower)

/-- `p` begins the list `l` (helper for the substring test below). -/
def listPre : List Char → List Char → Bool
  | [], _ => true
  | _ :: _, [] => false
  | p :: ps, c :: cs => p == c && listPre ps cs

/-- `p` occurs contiguously somewhere in `l`. -/
def listSub (p : List Char) : List Char → Bool
  | [] => listPre p []
  | c :: rest => listPre p (c :: rest) || listSub p rest

/-- Python's `in` / `str.__contains__`: `strContains s pat` holds iff `pat`
occurs as a contiguous substring of `s`. -/
def strContains (s pat : String) : Bool :=
  listSub pat.toList s.toList

theorem listPre_self_append (p t : List Char) : listPre p (p ++ t) = true := by
  induction p with
  | nil => rfl
  | cons c cs ih => simp [listPre, ih]

theorem listPre_append_right (p l t : List Char) (h : listPre p l = true) :
    listPre p (l ++ t) = true := by
  induction p generalizing l with
  | nil => rfl
  | cons c cs ih =>
    cases l with
    | nil => simp [listPre] at h
    | cons d ds =>
      simp only [listPre, Bool.and_eq_true, beq_iff_eq] at h
      simp only [List.cons_append, listPre, Bool.and_eq_true, beq_iff_eq]
      exact ⟨h.1, ih ds h.2⟩

theorem listSub_of_listPre (p l : List Char) (h : listPre p l = true) :
    listSub p l = true := by
  cases l with
  | nil => simpa [listSub] using h
  | cons c rest => simp [listSub, h]

theorem listSub_append_right (p l t : List Char) (h : listSub p l = true) :
    listSub p (l ++ t) = true := by
  induction l with
  | nil =>
    cases p with
    | nil =>
      cases t with
      | nil => rfl
      | cons c cs => simp [listSub, listPre]
    | cons c cs => simp [listSub, listPre] at h
  | cons c rest ih =>
    simp only [listSub, Bool.or_eq_true] at h
    rcases h with h | h
    · simp only [List.cons_append, listSub, Bool.or_eq_true]
      exact Or.inl (listPre_append_right _ _ _ h)
    · simp only [List.cons_append, listSub, Bool.or_eq_true]
      exact Or.inr (ih h)

theorem listSub_append_left (p l x : List Char) (h : listSub p l = true) :
    listSub p (x ++ l) = true := by
  induction x with
  | nil => simpa using h
  | cons c cs ih =>
    simp only [List.cons_append, listSub, Bool.or_eq_true]
    exact Or.inr ih

theorem strData_append (a b : String) : (a ++ b).data = a.data ++ b.data := by
  cases a; cases b; rfl

theorem strContains_self_append (pat t : String) :
    strContains (pat ++ t) pat = true := by
  unfold strContains String.toList
  rw [strData_append]
  exact listSub_of_listPre _ _ (listPre_self_append pat.data t.data)

theorem strContains_append_right (s t pat : String)
    (h : strContains s pat = true) : strContains (s ++ t) pat = true := by
  unfold strContains String.toList at h ⊢
  rw [strData_append]
  exact listSub_append_right _ _ _ h

theorem strContains_append_left (s t pat : String)
    (h : strContains t pat = true) : strContains (s ++ t) pat = true := by
  unfold strContains String.toList at h ⊢
  rw [strData_append]
  exact listSub_append_left _ _ _ h

theorem strContains_refl (pat : String) : strContains pat pat = true := by
  unfold strContains String.toList
  apply listSub_of_listPre
  have h := listPre_self_append pat.data []
  simpa using h

theorem strContains_append_self (s pat : String) :
    strContains (s ++ pat) pat = true :=
  strContains_append_left s pat pat (strContains_refl pat)

/-- Model of Python's fixed-point format `f"{x:5.3f}"`: round the value to 3
decimals (ties to even), render sign, integer part and exactly three
fractional digits, and pad on the left with spaces to a minimum width of 5. -/
def fmt53 (q : ℚ) : String :=
  let n : ℤ := pyRound (q * 1000)
  let sgn : String := if n < 0 then "-" else ""
  let a : ℕ := n.natAbs
  let ip : ℕ := a / 1000
  let fp : ℕ := a % 1000
  let fps : String :=
    if fp < 10 then "00" ++ toString fp
    else if fp < 100 then "0" ++ toString fp
    else toString fp
  let core : String := sgn ++ toString ip ++ "." ++ fps
  if core.length < 5 then String.mk (List.replicate (5 - core.length) ' ') ++ core
  else core

/-- `generate_shape_with_support` lines 370-374: `pos_in_mm_str`, the
`'_pos-x-y'` file-name fragment added iff at least one coordinate of
`position_box_location` is strictly positive. -/
def posSuffix (ctx : Context) : String :=
  if 0 < ctx.position_box_location.1 ∨ 0 < ctx.position_box_location.2 then
    "_pos-" ++ fmt53 ctx.position_box_location.1 ++ "-" ++ fmt53 ctx.position_box_location.2
  else ""

/-- The final value of `ctx.file_name` after `generate_shape_with_support`
(lines 359-377): in rerf mode the `_rerf_rc-..._cc-..._lh-...` suffix is
appended unless already present; otherwise the full parameter-encoding name
is built, with the position fragment added via `posSuffix`. -/
def updateFileName (ctx : Context) : String :=
  if ctx.file_name ≠ "" then
    if ctx.rerf then
      if strContains ctx.file_name "_rerf_rc-" = false then
        ctx.file_name ++ "_rerf_rc-" ++ toString ctx.row_count ++ "_cc-"
          ++ toString ctx.col_count ++ "_lh-" ++ fmt53 ctx.layer_height
      else ctx.file_name
    else
      ctx.file_name ++ "_cz-" ++ fmt53 ctx.cube_size ++ "_tl-" ++ fmt53 ctx.tube_length
        ++ "_thd-" ++ fmt53 ctx.tube_hole_diameter ++ "_twt-" ++ fmt53 ctx.tube_wall_thickness
        ++ "_rc-" ++ toString ctx.row_count ++ "_cc-" ++ toString ctx.col_count
        ++ "_lh-" ++ fmt53 ctx.layer_height ++ "_box-" ++ fmt53 ctx.position_box_size.1
        ++ "x" ++ fmt53 ctx.position_box_size.2 ++ posSuffix ctx
  else ctx.file_name

/-- The effect of one call of `generate_shape_with_support` on the `Context`
it receives (lines 273-379): the body contains exactly one assignment to a
context field, `ctx.file_name = ...` (lines 366-377); everything else it
computes is local or handed to the CAD kernel. -/
def generate_shape_with_support_ctx (ctx : Context) : Context :=
  { ctx with file_name := updateFileName ctx }

/-- `generate_shape_with_support` lines 354-357: the built object is
translated by `position_box_location` iff both coordinates are strictly
positive; this is the net (x, y) translation applied. -/
def buildTranslation (ctx : Context) : ℚ × ℚ :=
  if 0 < ctx.position_box_location.1 ∧ 0 < ctx.position_box_location.2 then
    ctx.position_box_location
  else (0, 0)

/-- C7: the generated file name is a deterministic function of the run's
parameters: two contexts with equal field values receive equal final
`file_name` values, and the name follows the fixed format strings of lines
368 and 377 (rerf names encode row/column counts and layer height; non-rerf
names encode the dimensional parameters, counts, layer height, box size, and
position when nonzero, via `posSuffix`). -/
theorem file_name_deterministic (c1 c2 : Context)
    (hversion : c1.version = c2.version)
    (hfile_name : c1.file_name = c2.file_name)
    (hfile_format : c1.file_format = c2.file_format)
    (hrerf : c1.rerf = c2.rerf)
    (hrow_count : c1.row_count = c2.row_count)
    (hcol_count : c1.col_count = c2.col_count)
    (hpbl : c1.position_box_location = c2.position_box_location)
    (hpbs : c1.position_box_size = c2.position_box_size)
    (hcube_size : c1.cube_size = c2.cube_size)
    (htube_length : c1.tube_length = c2.tube_length)
    (hthd : c1.tube_hole_diameter = c2.tube_hole_diameter)
    (htwt : c1.tube_wall_thickness = c2.tube_wall_thickness)
    (hbed_resolution : c1.bed_resolution = c2.bed_resolution)
    (hbed_size : c1.bed_size = c2.bed_size)
    (hzlift_height : c1.zlift_height = c2.zlift_height)
    (hlayer_height : c1.layer_height = c2.layer_height)
    (hbase_layers : c1.base_layers = c2.base_layers)
    (hoverlap : c1.overlap = c2.overlap)
    (hshow_flag : c1.show_flag = c2.show_flag) :
    updateFileName c1 = updateFileName c2
    ∧ (c1.rerf = true → c1.file_name ≠ "" →
        strContains c1.file_name "_rerf_rc-" = false →
        updateFileName c1 = c1.file_name ++ "_rerf_rc-" ++ toString c1.row_count
          ++ "_cc-" ++ toString c1.col_count ++ "_lh-" ++ fmt53 c1.layer_height)
    ∧ (c1.rerf = false → c1.file_name ≠ "" →
        updateFileName c1 = c1.file_name ++ "_cz-" ++ fmt53 c1.cube_size
          ++ "_tl-" ++ fmt53 c1.tube_length ++ "_thd-" ++ fmt53 c1.tube_hole_diameter
          ++ "_twt-" ++ fmt53 c1.tube_wall_thickness ++ "_rc-" ++ toString c1.row_count
          ++ "_cc-" ++ toString c1.col_count ++ "_lh-" ++ fmt53 c1.layer_height
          ++ "_box-" ++ fmt53 c1.position_box_size.1 ++ "x" ++ fmt53 c1.position_box_size.2
          ++ posSuffix c1) := by
  have hc : c1 = c2 := by
    cases c1
    cases c2
    simp only [Context.mk.injEq]
    simp_all
  refine ⟨by rw [hc], ?_, ?_⟩
  · intro h1 h2 h3
    simp [updateFileName, h1, h2, h3]
  · intro h1 h2
    simp [updateFileName, h1, h2]

/-- Two syntactically different but value-equal contexts, for the
determinism witness. -/
def ctxA : Context :=
  { gridCexOddCube with rerf := false, file_name := "cubes" }

/-- Same values as `ctxA`, written with different arithmetic. -/
def ctxB : Context :=
  { gridCexOddCube with rerf := false, file_name := "cubes", cube_size := 1 + 2 }

theorem file_name_deterministic_witness :
    ctxA.cube_size = ctxB.cube_size ∧ updateFileName ctxA = updateFileName ctxB :=
  ⟨by norm_num [ctxA, ctxB, gridCexOddCube],
    (file_name_deterministic ctxA ctxB rfl rfl rfl rfl rfl rfl rfl rfl
      (by norm_num [ctxA, ctxB, gridCexOddCube]) rfl rfl rfl rfl rfl rfl rfl rfl rfl
      rfl).1⟩

/-- C8: `generate_shape_with_support` mutates only the `file_name` field of
the context passed to it; every other field has the same value after the
call as before. -/
theorem gsws_mutates_only_file_name (ctx : Context) :
    (generate_shape_with_support_ctx ctx).file_name = updateFileName ctx
    ∧ (generate_shape_with_support_ctx ctx).version = ctx.version
    ∧ (generate_shape_with_support_ctx ctx).file_format = ctx.file_format
    ∧ (generate_shape_with_support_ctx ctx).rerf = ctx.rerf
    ∧ (generate_shape_with_support_ctx ctx).row_count = ctx.row_count
    ∧ (generate_shape_with_support_ctx ctx).col_count = ctx.col_count
    ∧ (generate_shape_with_support_ctx ctx).position_box_location = ctx.position_box_location
    ∧ (generate_shape_with_support_ctx ctx).position_box_size = ctx.position_box_size
    ∧ (generate_shape_with_support_ctx ctx).cube_size = ctx.cube_size
    ∧ (generate_shape_with_support_ctx ctx).tube_length = ctx.tube_length
    ∧ (generate_shape_with_support_ctx ctx).tube_hole_diameter = ctx.tube_hole_diameter
    ∧ (generate_shape_with_support_ctx ctx).tube_wall_thickness = ctx.tube_wall_thickness
    ∧ (generate_shape_with_support_ctx ctx).bed_resolution = ctx.bed_resolution
    ∧ (generate_shape_with_support_ctx ctx).bed_size = ctx.bed_size
    ∧ (generate_shape_with_support_ctx ctx).zlift_height = ctx.zlift_height
    ∧ (generate_shape_with_support_ctx ctx).layer_height = ctx.layer_height
    ∧ (generate_shape_with_support_ctx ctx).base_layers = ctx.base_layers
    ∧ (generate_shape_with_support_ctx ctx).overlap = ctx.overlap
    ∧ (generate_shape_with_support_ctx ctx).show_flag = ctx.show_flag :=
  ⟨rfl, rfl, rfl, rfl, rfl, rfl, rfl, rfl, rfl, rfl, rfl, rfl, rfl, rfl, rfl,
    rfl, rfl, rfl, rfl⟩

/-- Iterating the context effect never changes the `rerf` flag. -/
theorem gsws_iterate_rerf (k : ℕ) (c : Context) :
    (generate_shape_with_support_ctx^[k] c).rerf = c.rerf := by
  induction k generalizing c with
  | zero => rfl
  | succ k ih =>
    rw [Function.iterate_succ_apply]
    rw [ih]
    rfl

/-- A rerf context whose file name already carries the marker is a fixed
point of the context effect. -/
theorem gsws_fixed_of_marker (c : Context) (hc : c.rerf = true)
    (hcc : strContains c.file_name "_rerf_rc-" = true) :
    generate_shape_with_support_ctx c = c := by
  have hupd : updateFileName c = c.file_name := by
    simp [updateFileName, hc, hcc]
  unfold generate_shape_with_support_ctx
  rw [hupd]

/-- C9: appending the rerf file-name suffix is idempotent: when `rerf` is set
and the file name already contains `"_rerf_rc-"`, `generate_shape_with_support`
leaves the file name unchanged; hence across the eight calls made in rerf
mode the suffix is appended exactly once, on the first call only — after the
first call the name carries the marker and every later call returns the same
name. -/
theorem rerf_suffix_appended_once (ctx : Context) (hrerf : ctx.rerf = true) :
    (strContains ctx.file_name "_rerf_rc-" = true →
      updateFileName ctx = ctx.file_name)
    ∧ (ctx.file_name ≠ "" → strContains ctx.file_name "_rerf_rc-" = false →
        strContains (updateFileName ctx) "_rerf_rc-" = true
        ∧ ∀ n : ℕ, (generate_shape_with_support_ctx^[n + 1] ctx).file_name
            = updateFileName ctx) := by
  constructor
  · intro h
    simp [updateFileName, hrerf, h]
  · intro hne hnc
    have hupd : updateFileName ctx
        = ctx.file_name ++ "_rerf_rc-" ++ toString ctx.row_count ++ "_cc-"
          ++ toString ctx.col_count ++ "_lh-" ++ fmt53 ctx.layer_height := by
      simp [updateFileName, hrerf, hne, hnc]
    have hcontains : strContains (updateFileName ctx) "_rerf_rc-" = true := by
      rw [hupd]
      apply strContains_append_right
      apply strContains_append_right
      apply strContains_append_right
      apply strContains_append_right
      apply strContains_append_right
      exact strContains_append_self ctx.file_name "_rerf_rc-"
    refine ⟨hcontains, ?_⟩
    intro n
    induction n with
    | zero => rfl
    | succ n ih =>
      rw [Function.iterate_succ_apply']
      have hfix := gsws_fixed_of_marker (generate_shape_with_support_ctx^[n + 1] ctx)
        (by rw [gsws_iterate_rerf]; exact hrerf)
        (by rw [ih]; exact hcontains)
      rw [hfix, ih]

/-- Rerf context for the suffix-idempotence witness. -/
def ctxRerf : Context :=
  { gridCexOddCube with rerf := true, file_name := "cubes" }

theorem rerf_suffix_appended_once_witness :
    ctxRerf.rerf = true ∧
    strContains (updateFileName ctxRerf) "_rerf_rc-" = true ∧
    (generate_shape_with_support_ctx^[8] ctxRerf).file_name = updateFileName ctxRerf :=
  ⟨rfl,
    ((rerf_suffix_appended_once ctxRerf rfl).2 (by decide) (by decide)).1,
    ((rerf_suffix_appended_once ctxRerf rfl).2 (by decide) (by decide)).2 7⟩

theorem str_ne_empty_of_data_ne_nil (s : String) (h : s.data ≠ []) : s ≠ "" := by
  intro he
  apply h
  rw [he]

/-- C10: the two position-box-location guards disagree: the build object is
translated iff both coordinates are strictly positive (line 355), but the
`'_pos-x-y'` suffix is added iff at least one is (line 371).  For every
non-rerf context with exactly one strictly positive coordinate the object
stays untranslated at the origin while the generated file name still records
the position. -/
theorem position_guards_disagree (ctx : Context)
    (hrerf : ctx.rerf = false) (hne : ctx.file_name ≠ "")
    (hone : (0 < ctx.position_box_location.1 ∧ ¬ 0 < ctx.position_box_location.2)
          ∨ (¬ 0 < ctx.position_box_location.1 ∧ 0 < ctx.position_box_location.2)) :
    buildTranslation ctx = (0, 0)
    ∧ posSuffix ctx ≠ ""
    ∧ strContains (updateFileName ctx) "_pos-" = true := by
  have hguardA : ¬ (0 < ctx.position_box_location.1 ∧ 0 < ctx.position_box_location.2) := by
    rcases hone with ⟨h1, h2⟩ | ⟨h1, h2⟩ <;> tauto
  have hguardB : 0 < ctx.position_box_location.1 ∨ 0 < ctx.position_box_location.2 := by
    rcases hone with ⟨h1, _⟩ | ⟨_, h2⟩
    · exact Or.inl h1
    · exact Or.inr h2
  have hpos : posSuffix ctx
      = "_pos-" ++ fmt53 ctx.position_box_location.1 ++ "-"
        ++ fmt53 ctx.position_box_location.2 := by
    unfold posSuffix
    rw [if_pos hguardB]
  refine ⟨?_, ?_, ?_⟩
  · unfold buildTranslation
    rw [if_neg hguardA]
  · rw [hpos]
    apply str_ne_empty_of_data_ne_nil
    rw [strData_append, strData_append, strData_append]
    simp
  · have hupd : updateFileName ctx
        = ctx.file_name ++ "_cz-" ++ fmt53 ctx.cube_size
          ++ "_tl-" ++ fmt53 ctx.tube_length ++ "_thd-" ++ fmt53 ctx.tube_hole_diameter
          ++ "_twt-" ++ fmt53 ctx.tube_wall_thickness ++ "_rc-" ++ toString ctx.row_count
          ++ "_cc-" ++ toString ctx.col_count ++ "_lh-" ++ fmt53 ctx.layer_height
          ++ "_box-" ++ fmt53 ctx.position_box_size.1 ++ "x" ++ fmt53 ctx.position_box_size.2
          ++ posSuffix ctx := by
      simp [updateFileName, hrerf, hne]
    rw [hupd]
    apply strContains_append_left
    rw [hpos]
    apply strContains_append_right
    apply strContains_append_right
    exact strContains_self_append "_pos-" (fmt53 ctx.position_box_location.1)

/-- Non-rerf context at location (5, 0): exactly one strictly positive
coordinate. -/
def ctxHalfPos : Context :=
  { gridCexOddCube with
    rerf := false, file_name := "cubes",
    position_box_location := (5, 0) }

theorem position_guards_disagree_witness :
    ctxHalfPos.rerf = false ∧
    (buildTranslation ctxHalfPos = (0, 0)
      ∧ posSuffix ctxHalfPos ≠ ""
      ∧ strContains (updateFileName ctxHalfPos) "_pos-" = true) :=
  ⟨rfl, position_guards_disagree ctxHalfPos rfl (by decide)
    (Or.inl ⟨by norm_num [ctxHalfPos, gridCexOddCube],
             by norm_num [ctxHalfPos, gridCexOddCube]⟩)⟩

/-- Python exceptions relevant to this program's own code paths. -/
inductive PyExc where
  | argumentTypeError : PyExc
  | unboundLocalError : PyExc
  | attributeError : PyExc
deriving DecidableEq

/-- The attributes of the `sys` module that the script uses or intends to
use (`sys.stdout`, `sys.argv`, `sys.exit`, `sys.stderr`).  `"sdterr"`, the
name actually written at line 271, is not among them, so reading it raises
`AttributeError`. -/
def sysModuleAttrs : List String := ["stdout", "stderr", "argv", "exit"]

/-- Attribute lookup on the `sys` module. -/
def sysHasAttr (a : String) : Bool := sysModuleAttrs.contains a

/-- Observable outcome of `export_model`. -/
inductive ExportResult where
  | exported (path : String) : ExportResult
  | printedError (msg : String) : ExportResult
  | raised (e : PyExc) : ExportResult
deriving DecidableEq

/-- `export_model` (lines 251-271): dispatch on the lower-cased format;
`'stl'` and `'step'` export to `file_name + extension`; any other format
reaches `print("Unsupported format. Use 'stl' or 'step'.", file=sys.sdterr)`,
whose argument `sys.sdterr` (a typo for `sys.stderr`) is evaluated first and
raises `AttributeError`, so the message is never printed.  The unused `ctx`
and the geometric `model` argument are omitted. -/
def export_model (file_name : String) (file_format : String) : ExportResult :=
  if strLower file_format = "stl" then
    ExportResult.exported (file_name ++ ".stl")
  else if strLower file_format = "step" then
    ExportResult.exported (file_name ++ ".step")
  else if sysHasAttr "sdterr" then
    ExportResult.printedError "Unsupported format. Use 'stl' or 'step'."
  else
    ExportResult.raised PyExc.attributeError

/-- C1 fails on the code: for a format whose lower-casing is neither
`'stl'` nor `'step'` the error branch evaluates `sys.sdterr` — a typo for
`sys.stderr` — and raises `AttributeError` instead of printing the message
and returning normally.  The supported formats behave as documented. -/
theorem export_model_unsupported_raises :
    export_model "cubes" "json" = ExportResult.raised PyExc.attributeError
    ∧ export_model "cubes" "stl" = ExportResult.exported "cubes.stl"
    ∧ export_model "cubes" "STEP" = ExportResult.exported "cubes.step" := by
  decide

/-- Leading/trailing whitespace stripping as Python's `int(str)` performs
before parsing. -/
def stripWs (l : List Char) : List Char :=
  ((l.dropWhile Char.isWhitespace).reverse.dropWhile Char.isWhitespace).reverse

/-- Numeric value of a digit string. -/
def digitsVal (l : List Char) : ℕ :=
  l.foldl (fun a c => a * 10 + (c.toNat - 48)) 0

/-- Python's `int(str)` on plain decimal strings: optional surrounding
whitespace, optional sign, then at least one digit; everything else raises
`ValueError` (modelled as `none`). -/
def pyIntParse (s : String) : Option ℤ :=
  match stripWs s.toList with
  | [] => none
  | c :: rest =>
    if c = '-' then
      if rest ≠ [] ∧ rest.all Char.isDigit then some (-(digitsVal rest : ℤ)) else none
    else if c = '+' then
      if rest ≠ [] ∧ rest.all Char.isDigit then some ((digitsVal rest : ℤ)) else none
    else if (c :: rest).all Char.isDigit then some ((digitsVal (c :: rest) : ℤ))
    else none

/-- `row_col_checker` (lines 401-412): `int(value)` then the range check
`1 <= ivalue <= 10`.  Out-of-range integers raise
`argparse.ArgumentTypeError`.  When `int(value)` raises `ValueError`, the
handler's own message `f"{ivalue} is not a valid ..."` reads `ivalue`, which
was never assigned, so the function raises `UnboundLocalError` instead of
the intended `ArgumentTypeError`. -/
def row_col_checker (value : String) : Except PyExc ℤ :=
  match pyIntParse value with
  | some ivalue =>
    if ivalue < 1 ∨ 10 < ivalue then Except.error PyExc.argumentTypeError
    else Except.ok ivalue
  | none => Except.error PyExc.unboundLocalError

/-- C6 fails on the code for non-integer strings: in-range integers are
accepted and out-of-range integers are rejected with `ArgumentTypeError` as
claimed, but a non-integer string such as `"abc"` raises
`UnboundLocalError` (the except-branch f-string reads the unassigned
`ivalue`), not `ArgumentTypeError`. -/
theorem row_col_checker_behavior :
    row_col_checker "abc" = Except.error PyExc.unboundLocalError
    ∧ row_col_checker "5" = Except.ok 5
    ∧ row_col_checker "1" = Except.ok 1
    ∧ row_col_checker "10" = Except.ok 10
    ∧ row_col_checker "0" = Except.error PyExc.argumentTypeError
    ∧ row_col_checker "11" = Except.error PyExc.argumentTypeError
    ∧ row_col_checker "-3" = Except.error PyExc.argumentTypeError :=
  ⟨rfl, rfl, rfl, rfl, rfl, rfl, rfl⟩
